import Mathlib

/-!
Verification of the purgeman purge dispatcher (`pkg/purgeman/service.go`).

The core under study is pure control flow over strings, so it is embedded
shallowly:

* `trimRightSlashes` embeds `strings.TrimRight(urlPrefix, "/")` (service.go:161).
* `dispatchOne` embeds the per-target closure `f` inside
  `PurgemanService.purgeCache` (service.go:158-208).
* `purgeCache` embeds the fan-out loop (service.go:154-213); each goroutine's
  outcome is recorded positionally in a list, one entry per configured target.
* `fetchIRODSPath` embeds `PurgemanService.fetchIRODSPath` (service.go:113-125).
* `fsEventHandler` embeds `PurgemanService.fsEventHandler` (service.go:128-142).

External collaborators are parameters:

* `parse : String → Option GoURL` stands for `net/url.Parse`; `none` models a
  parse error, `some u` a parsed URL of which the code only reads `u.Host`.
  Both the explicit `url.Parse` call (service.go:173) and the parse performed
  inside `http.NewRequest` (service.go:184) are modelled by the same oracle,
  since Go's `http.NewRequest` fails exactly when `url.Parse` fails on the URL.
* `transport : Request → Option Nat` stands for `http.DefaultClient.Do`;
  `none` models a transport error, `some s` a response with status code `s`.
* `resolve : String → Option (List String)` stands for
  `IRODSClient.SearchByMeta("ipc_UUID", uuid)`; `none` models a query error,
  `some l` the list of paths of the returned entries.
-/

/-- Result of `net/url.Parse` as the code consumes it: only the `Host`
component is ever read (service.go:179). -/
structure GoURL where
  host : String
deriving DecidableEq

/-- The outbound HTTP request as built in `purgeCache` (service.go:184-194):
method `PURGE`, the constructed URL, the `req.Host` override field (empty
string when not overridden, Go's zero value), and the basic-auth credentials
set via `req.SetBasicAuth` (service.go:194). -/
structure Request where
  method : String
  url : String
  hostField : String
  basicAuthUser : String
  basicAuthPass : String
deriving DecidableEq

/-- Outcome of one per-target dispatch task, one constructor per `return`
path of the closure `f` in `purgeCache`:
`urlParseError` = service.go:176, `requestBuildError` = service.go:187,
`transportError` = service.go:199, `badStatus` = service.go:204,
`success` = service.go:207. -/
inductive TargetOutcome where
  | urlParseError (requestURL : String)
  | requestBuildError (requestURL : String)
  | transportError (req : Request)
  | badStatus (req : Request) (status : Nat)
  | success (req : Request) (status : Nat)
deriving DecidableEq

/-- The configuration fields `purgeCache` and `fsEventHandler` read:
`Config.VarnishURLPrefixes`, `Config.VarnishHostsOverride`,
`Config.IRODSUsername`, `Config.IRODSPassword`. -/
structure Config where
  varnishURLPrefixes : List String
  varnishHostsOverride : List String
  irodsUsername : String
  irodsPassword : String
deriving DecidableEq

/-- Embeds `strings.TrimRight(urlPrefix, "/")` (service.go:161): removes all
trailing `/` characters. -/
def trimRightSlashes (s : String) : String :=
  String.mk ((s.data.reverse.dropWhile (fun c => c = '/')).reverse)

/-- Embeds `http.NewRequest("PURGE", requestURL, nil)` followed by the
conditional `req.Host = hostOverride` (service.go:190-192, a no-op when the
override is empty since `req.Host` zero-initialises to `""`) and
`req.SetBasicAuth(svc.Config.IRODSUsername, svc.Config.IRODSPassword)`
(service.go:194). -/
def mkPurgeRequest (cfg : Config) (requestURL hostOverride : String) : Request :=
  { method := "PURGE"
    url := requestURL
    hostField := hostOverride
    basicAuthUser := cfg.irodsUsername
    basicAuthPass := cfg.irodsPassword }

/-- Embeds `http.DefaultClient.Do(req)` and the status check
(service.go:196-207): a transport error returns early, a status outside
`[200, 300)` is an observed failure, anything else is a success. -/
def sendRequest (transport : Request → Option Nat) (req : Request) : TargetOutcome :=
  match transport req with
  | none => .transportError req
  | some status =>
    if status < 200 ∨ status ≥ 300 then .badStatus req status
    else .success req status

/-- Embeds the request construction and dispatch tail of the closure `f`
(service.go:184-207): `http.NewRequest` fails exactly when `url.Parse` fails
on `requestURL`, which aborts this target (service.go:185-188); otherwise the
request is sent. -/
def buildAndSend (cfg : Config) (parse : String → Option GoURL)
    (transport : Request → Option Nat) (requestURL hostOverride : String) :
    TargetOutcome :=
  match parse requestURL with
  | none => .requestBuildError requestURL
  | some _ => sendRequest transport (mkPurgeRequest cfg requestURL hostOverride)

/-- Embeds the whole per-target closure `f` (service.go:158-208) for target
index `idx` and URL prefix `pfx`: trim trailing slashes, append the path,
look up the positional host override (empty when the override list is too
short, service.go:164-167), and in the no-override branch parse the URL for
its host, aborting this target on a parse error (service.go:172-180). The
parsed host is only logged; the outbound `Host` header is `req.Host` when
overridden, else the host of `req.URL` inside the transport. -/
def dispatchOne (cfg : Config) (parse : String → Option GoURL)
    (transport : Request → Option Nat) (path : String)
    (idx : Nat) (pfx : String) : TargetOutcome :=
  let requestURL := trimRightSlashes pfx ++ path
  let hostOverride := cfg.varnishHostsOverride.getD idx ""
  if hostOverride.length > 0 then
    buildAndSend cfg parse transport requestURL hostOverride
  else
    match parse requestURL with
    | none => .urlParseError requestURL
    | some _ => buildAndSend cfg parse transport requestURL hostOverride

/-- Embeds the `for idx, varnishURL := range svc.Config.VarnishURLPrefixes`
loop (service.go:155-211), spawning one task per target starting at index
`idx`; each task's outcome is recorded positionally. -/
def purgeCacheAux (cfg : Config) (parse : String → Option GoURL)
    (transport : Request → Option Nat) (path : String) :
    Nat → List String → List TargetOutcome
  | _, [] => []
  | idx, pfx :: rest =>
    dispatchOne cfg parse transport path idx pfx ::
      purgeCacheAux cfg parse transport path (idx + 1) rest

/-- Embeds `PurgemanService.purgeCache` (service.go:145-214): one task per
configured Varnish URL prefix, joined by the `sync.WaitGroup` before the
function returns; the result lists every task's outcome in target order. -/
def purgeCache (cfg : Config) (parse : String → Option GoURL)
    (transport : Request → Option Nat) (path : String) : List TargetOutcome :=
  purgeCacheAux cfg parse transport path 0 cfg.varnishURLPrefixes

/-- Embeds `PurgemanService.fetchIRODSPath` (service.go:113-125):
`searchResult` is the outcome of `SearchByMeta("ipc_UUID", uuid)` (`none` =
error); on success with exactly one entry its path is returned, in every
other case the empty string. -/
def fetchIRODSPath (searchResult : Option (List String)) : String :=
  match searchResult with
  | some entries => if entries.length = 1 then entries.headD "" else ""
  | none => ""

/-- Embeds `PurgemanService.fsEventHandler` (service.go:128-142): the iRODS
path is the event's path, except that an empty path with a non-empty uuid is
resolved through `fetchIRODSPath`; the (possibly empty) result is always
passed to `purgeCache`. -/
def fsEventHandler (cfg : Config) (parse : String → Option GoURL)
    (transport : Request → Option Nat) (resolve : String → Option (List String))
    (eventtype path uuid : String) : List TargetOutcome :=
  let iRODSPath :=
    if path.length = 0 ∧ uuid.length > 0 then fetchIRODSPath (resolve uuid) else path
  purgeCache cfg parse transport iRODSPath

/-- The request a per-target task handed to the HTTP transport, if it got
that far; `none` when the task aborted before `http.DefaultClient.Do`. -/
def sentRequest : TargetOutcome → Option Request
  | .urlParseError _ => none
  | .requestBuildError _ => none
  | .transportError req => some req
  | .badStatus req _ => some req
  | .success req _ => some req

/-- The `requestURL` a per-target task constructed (service.go:162),
recoverable from every outcome. -/
def requestURLOfOutcome : TargetOutcome → String
  | .urlParseError u => u
  | .requestBuildError u => u
  | .transportError req => req.url
  | .badStatus req _ => req.url
  | .success req _ => req.url

/-- All requests of a fan-out that actually reached the HTTP transport. -/
def outboundRequests (outcomes : List TargetOutcome) : List Request :=
  outcomes.filterMap sentRequest

/-- Whether a per-target task reached the logging of an accepted request
(service.go:207). -/
def isSuccess : TargetOutcome → Bool
  | .success _ _ => true
  | _ => false

/-- The `Host` header Go's transport puts on the wire for a client request:
`req.Host` when non-empty, else the host of the parsed `req.URL`. -/
def effectiveHostHeader (parse : String → Option GoURL) (req : Request) : String :=
  if req.hostField.length > 0 then req.hostField
  else ((parse req.url).map GoURL.host).getD ""

/-- Partial model of the external `net/url.Parse`: Go rejects any raw URL
containing an ASCII control character (code point below `0x20`, or `0x7f`)
with `net/url: invalid control character in URL`; this model refuses exactly
those inputs and accepts everything else (the host component is irrelevant to
the facts proved with this oracle and is left empty). -/
def ctlRejectingParse (s : String) : Option GoURL :=
  if s.data.any (fun c => c.toNat < 0x20 ∨ c.toNat = 0x7f) then none
  else some { host := "" }

/-- A parse oracle that accepts every URL, reporting host `cache1`. -/
def parseCache1 : String → Option GoURL := fun _ => some { host := "cache1" }

/-- A transport oracle that answers every request with status 200. -/
def transport200 : Request → Option Nat := fun _ => some 200

/-- A metadata-search oracle that reports a query error for every uuid. -/
def resolveNone : String → Option (List String) := fun _ => none

section Helpers

theorem purgeCacheAux_length (cfg : Config) (parse : String → Option GoURL)
    (transport : Request → Option Nat) (path : String) (i : Nat) (l : List String) :
    (purgeCacheAux cfg parse transport path i l).length = l.length := by
  induction l generalizing i with
  | nil => rfl
  | cons pfx rest ih => simp [purgeCacheAux, ih]

theorem purgeCacheAux_getElem? (cfg : Config) (parse : String → Option GoURL)
    (transport : Request → Option Nat) (path : String) (l : List String)
    (i j : Nat) :
    (purgeCacheAux cfg parse transport path i l)[j]?
      = (l[j]?).map (fun pfx => dispatchOne cfg parse transport path (i + j) pfx) := by
  induction l generalizing i j with
  | nil => simp [purgeCacheAux]
  | cons pfx rest ih =>
    cases j with
    | zero => simp [purgeCacheAux]
    | succ j =>
      simp only [purgeCacheAux, List.getElem?_cons_succ, ih]
      have harith : i + 1 + j = i + (j + 1) := by omega
      rw [harith]

theorem purgeCache_getElem? (cfg : Config) (parse : String → Option GoURL)
    (transport : Request → Option Nat) (path : String) (j : Nat) :
    (purgeCache cfg parse transport path)[j]?
      = (cfg.varnishURLPrefixes[j]?).map
          (fun pfx => dispatchOne cfg parse transport path j pfx) := by
  have h := purgeCacheAux_getElem? cfg parse transport path cfg.varnishURLPrefixes 0 j
  simpa [purgeCache] using h

theorem purgeCache_length (cfg : Config) (parse : String → Option GoURL)
    (transport : Request → Option Nat) (path : String) :
    (purgeCache cfg parse transport path).length = cfg.varnishURLPrefixes.length :=
  purgeCacheAux_length cfg parse transport path 0 cfg.varnishURLPrefixes

theorem sentRequest_sendRequest (transport : Request → Option Nat) (req : Request) :
    sentRequest (sendRequest transport req) = some req := by
  unfold sendRequest
  cases transport req with
  | none => rfl
  | some status =>
    by_cases hs : status < 200 ∨ status ≥ 300 <;> simp [hs, sentRequest]

theorem requestURLOfOutcome_sendRequest (transport : Request → Option Nat) (req : Request) :
    requestURLOfOutcome (sendRequest transport req) = req.url := by
  unfold sendRequest
  cases transport req with
  | none => rfl
  | some status =>
    by_cases hs : status < 200 ∨ status ≥ 300 <;> simp [hs, requestURLOfOutcome]

theorem requestURLOfOutcome_buildAndSend (cfg : Config) (parse : String → Option GoURL)
    (transport : Request → Option Nat) (u hov : String) :
    requestURLOfOutcome (buildAndSend cfg parse transport u hov) = u := by
  unfold buildAndSend
  cases parse u with
  | none => rfl
  | some g => rw [requestURLOfOutcome_sendRequest]; rfl

theorem sentRequest_buildAndSend_of_parse (cfg : Config) (parse : String → Option GoURL)
    (transport : Request → Option Nat) (u hov : String) (g : GoURL)
    (h : parse u = some g) :
    sentRequest (buildAndSend cfg parse transport u hov)
      = some (mkPurgeRequest cfg u hov) := by
  unfold buildAndSend
  rw [h]
  exact sentRequest_sendRequest transport (mkPurgeRequest cfg u hov)

theorem sentRequest_buildAndSend_of_none (cfg : Config) (parse : String → Option GoURL)
    (transport : Request → Option Nat) (u hov : String)
    (h : parse u = none) :
    sentRequest (buildAndSend cfg parse transport u hov) = none := by
  unfold buildAndSend
  rw [h]
  rfl

theorem isSuccess_sendRequest (transport : Request → Option Nat) (req : Request) :
    isSuccess (sendRequest transport req) = true
      ↔ ∃ s, transport req = some s ∧ 200 ≤ s ∧ s < 300 := by
  unfold sendRequest
  cases h : transport req with
  | none => simp [isSuccess]
  | some status =>
    by_cases hs : status < 200 ∨ status ≥ 300
    · simp only [hs, if_pos]
      simp [isSuccess]
      omega
    · simp only [hs, if_neg, not_false_iff]
      simp [isSuccess]
      omega

theorem string_length_pos_of_ne_empty (s : String) (h : s ≠ "") : 0 < s.length := by
  cases s with
  | mk l =>
    cases l with
    | nil => exact absurd rfl h
    | cons c cs => simp [String.length]

theorem string_ne_empty_of_length_pos (s : String) (h : 0 < s.length) : s ≠ "" := by
  intro he
  rw [he] at h
  exact absurd h (by decide)

theorem head?_dropWhile_ne {α : Type} (p : α → Bool) (l : List α) (a : α)
    (h : (l.dropWhile p).head? = some a) : p a = false := by
  induction l with
  | nil => simp [List.dropWhile] at h
  | cons b t ih =>
    rw [List.dropWhile_cons] at h
    cases hb : p b with
    | true => rw [hb] at h; simp only [if_pos] at h; exact ih h
    | false =>
      rw [hb] at h
      simp only [Bool.false_eq_true, if_false, List.head?_cons, Option.some.injEq] at h
      rw [← h]
      exact hb

theorem listGetLast?_reverse {α : Type} (l : List α) :
    l.reverse.getLast? = l.head? := by
  cases l with
  | nil => rfl
  | cons a t => rw [List.reverse_cons, List.getLast?_concat]; rfl

/-- `strings.TrimRight(s, "/")` removes a (possibly empty) run of trailing
slashes and nothing else: the original string is the trimmed string followed
by `k` slashes, and the trimmed string does not end in a slash. -/
theorem trimRightSlashes_spec (s : String) :
    (∃ k, s.data = (trimRightSlashes s).data ++ List.replicate k '/')
    ∧ (trimRightSlashes s).data.getLast? ≠ some '/' := by
  constructor
  · refine ⟨(s.data.reverse.takeWhile (fun c => c = '/')).length, ?_⟩
    have hsplit := List.takeWhile_append_dropWhile (fun c => c = '/') s.data.reverse
    have hrep : s.data.reverse.takeWhile (fun c => c = '/')
        = List.replicate (s.data.reverse.takeWhile (fun c => c = '/')).length '/' := by
      apply List.eq_replicate_length.mpr
      intro b hb
      have hpb := List.mem_takeWhile_imp hb
      simpa using hpb
    have hrev : (s.data.reverse.takeWhile (fun c => c = '/')).reverse
        = List.replicate (s.data.reverse.takeWhile (fun c => c = '/')).length '/' := by
      conv_lhs => rw [hrep]
      rw [List.reverse_replicate]
    conv_lhs => rw [← List.reverse_reverse s.data, ← hsplit]
    rw [List.reverse_append, hrev]
    rfl
  · intro hlast
    have hhead : (s.data.reverse.dropWhile (fun c => c = '/')).head? = some '/' := by
      rw [← listGetLast?_reverse]
      exact hlast
    have := head?_dropWhile_ne (fun c => c = '/') s.data.reverse '/' hhead
    simp at this

theorem dispatchOne_override_branch (cfg : Config) (parse : String → Option GoURL)
    (transport : Request → Option Nat) (path : String) (idx : Nat) (pfx : String)
    (h : 0 < (cfg.varnishHostsOverride.getD idx "").length) :
    dispatchOne cfg parse transport path idx pfx
      = buildAndSend cfg parse transport (trimRightSlashes pfx ++ path)
          (cfg.varnishHostsOverride.getD idx "") := by
  unfold dispatchOne
  simp only [h, if_pos]

theorem dispatchOne_noOverride_branch (cfg : Config) (parse : String → Option GoURL)
    (transport : Request → Option Nat) (path : String) (idx : Nat) (pfx : String)
    (h : cfg.varnishHostsOverride.getD idx "" = "") :
    dispatchOne cfg parse transport path idx pfx
      = match parse (trimRightSlashes pfx ++ path) with
        | none => .urlParseError (trimRightSlashes pfx ++ path)
        | some _ =>
          buildAndSend cfg parse transport (trimRightSlashes pfx ++ path) "" := by
  unfold dispatchOne
  simp only [h]
  rfl

theorem dispatchOne_cases (cfg : Config) (parse : String → Option GoURL)
    (transport : Request → Option Nat) (path : String) (idx : Nat) (pfx : String) :
    dispatchOne cfg parse transport path idx pfx
        = .urlParseError (trimRightSlashes pfx ++ path)
    ∨ dispatchOne cfg parse transport path idx pfx
        = .requestBuildError (trimRightSlashes pfx ++ path)
    ∨ dispatchOne cfg parse transport path idx pfx
        = sendRequest transport (mkPurgeRequest cfg (trimRightSlashes pfx ++ path)
            (cfg.varnishHostsOverride.getD idx "")) := by
  by_cases hov : 0 < (cfg.varnishHostsOverride.getD idx "").length
  · rw [dispatchOne_override_branch cfg parse transport path idx pfx hov]
    unfold buildAndSend
    cases parse (trimRightSlashes pfx ++ path) with
    | none => exact Or.inr (Or.inl rfl)
    | some g => exact Or.inr (Or.inr rfl)
  · have hemp : cfg.varnishHostsOverride.getD idx "" = "" := by
      by_contra hne
      exact hov (string_length_pos_of_ne_empty _ hne)
    rw [dispatchOne_noOverride_branch cfg parse transport path idx pfx hemp, hemp]
    cases hp : parse (trimRightSlashes pfx ++ path) with
    | none => exact Or.inl rfl
    | some g =>
      unfold buildAndSend
      rw [hp]
      exact Or.inr (Or.inr rfl)

theorem dispatchOne_parse_congr (cfg : Config) (parse₁ parse₂ : String → Option GoURL)
    (transport : Request → Option Nat) (path : String) (idx : Nat) (pfx : String)
    (h : parse₁ (trimRightSlashes pfx ++ path) = parse₂ (trimRightSlashes pfx ++ path)) :
    dispatchOne cfg parse₁ transport path idx pfx
      = dispatchOne cfg parse₂ transport path idx pfx := by
  unfold dispatchOne buildAndSend
  simp only [h]

theorem requestURLOfOutcome_dispatchOne (cfg : Config) (parse : String → Option GoURL)
    (transport : Request → Option Nat) (path : String) (idx : Nat) (pfx : String) :
    requestURLOfOutcome (dispatchOne cfg parse transport path idx pfx)
      = trimRightSlashes pfx ++ path := by
  unfold dispatchOne
  by_cases hov : (cfg.varnishHostsOverride.getD idx "").length > 0
  · simp only [hov, if_pos]
    exact requestURLOfOutcome_buildAndSend ..
  · simp only [hov, if_neg, not_false_iff]
    cases parse (trimRightSlashes pfx ++ path) with
    | none => rfl
    | some g => exact requestURLOfOutcome_buildAndSend ..

theorem sentRequest_dispatchOne_of_parse (cfg : Config) (parse : String → Option GoURL)
    (transport : Request → Option Nat) (path : String) (idx : Nat) (pfx : String)
    (g : GoURL) (h : parse (trimRightSlashes pfx ++ path) = some g) :
    sentRequest (dispatchOne cfg parse transport path idx pfx)
      = some (mkPurgeRequest cfg (trimRightSlashes pfx ++ path)
          (cfg.varnishHostsOverride.getD idx "")) := by
  unfold dispatchOne
  by_cases hov : (cfg.varnishHostsOverride.getD idx "").length > 0
  · simp only [hov, if_pos]
    exact sentRequest_buildAndSend_of_parse cfg parse transport _ _ g h
  · simp only [hov, if_neg, not_false_iff]
    rw [h]
    exact sentRequest_buildAndSend_of_parse cfg parse transport _ _ g h

theorem outboundRequests_purgeCacheAux_total (cfg : Config)
    (parse : String → Option GoURL) (transport : Request → Option Nat)
    (path : String) (htotal : ∀ s, (parse s).isSome) (i : Nat) (l : List String) :
    (outboundRequests (purgeCacheAux cfg parse transport path i l)).length
      = l.length := by
  induction l generalizing i with
  | nil => rfl
  | cons pfx rest ih =>
    obtain ⟨g, hg⟩ := Option.isSome_iff_exists.mp (htotal (trimRightSlashes pfx ++ path))
    simp only [purgeCacheAux, outboundRequests, List.filterMap_cons,
      sentRequest_dispatchOne_of_parse cfg parse transport path i pfx g hg]
    simpa [outboundRequests] using ih (i + 1)

theorem outboundRequests_length_le (outcomes : List TargetOutcome) :
    (outboundRequests outcomes).length ≤ outcomes.length :=
  List.length_filterMap_le sentRequest outcomes

end Helpers

/-- A one-target configuration with a host override, for concrete checks. -/
def cfgOv : Config :=
  { varnishURLPrefixes := ["http://cache1/"]
    varnishHostsOverride := ["edge.example"]
    irodsUsername := "rods"
    irodsPassword := "pw" }

/-- A one-target configuration with no override entries, for concrete checks. -/
def cfgNoOv : Config :=
  { varnishURLPrefixes := ["http://cache1/"]
    varnishHostsOverride := []
    irodsUsername := "rods"
    irodsPassword := "pw" }

/-- A one-target configuration whose only override entry is empty. -/
def cfgEmptyOv : Config :=
  { varnishURLPrefixes := ["http://cache1/"]
    varnishHostsOverride := [""]
    irodsUsername := "rods"
    irodsPassword := "pw" }

/-- C1: for every cache target with a non-empty host override entry at its
(in-bounds) index, any request that target hands to the HTTP transport has
its `Host` field set to the override string verbatim, and the `Host` header
put on the wire equals that override, regardless of what host the request
URL itself would parse to. -/
theorem C1_hostOverride_used_verbatim (cfg : Config) (parse : String → Option GoURL)
    (transport : Request → Option Nat) (path : String) (idx : Nat) (pfx : String)
    (req : Request)
    (hidx : idx < cfg.varnishHostsOverride.length)
    (hne : cfg.varnishHostsOverride.getD idx "" ≠ "")
    (hsent : sentRequest (dispatchOne cfg parse transport path idx pfx) = some req) :
    req.hostField = cfg.varnishHostsOverride.getD idx ""
    ∧ effectiveHostHeader parse req = cfg.varnishHostsOverride.getD idx "" := by
  have hlen := string_length_pos_of_ne_empty _ hne
  rw [dispatchOne_override_branch cfg parse transport path idx pfx hlen] at hsent
  cases hp : parse (trimRightSlashes pfx ++ path) with
  | none =>
    rw [sentRequest_buildAndSend_of_none cfg parse transport _ _ hp] at hsent
    exact absurd hsent (by simp)
  | some g =>
    rw [sentRequest_buildAndSend_of_parse cfg parse transport _ _ g hp] at hsent
    have hreq : req = mkPurgeRequest cfg (trimRightSlashes pfx ++ path)
        (cfg.varnishHostsOverride.getD idx "") := by
      injection hsent with h'
      exact h'.symm
    subst hreq
    refine ⟨rfl, ?_⟩
    unfold effectiveHostHeader mkPurgeRequest
    simp only [hlen, if_pos]

/-- Witness for C1: one target `http://cache1/` with override `edge.example`,
a total parse oracle reporting host `cache1`, transport answering 200. -/
theorem C1_hostOverride_used_verbatim_w :
    (mkPurgeRequest cfgOv "http://cache1/x" "edge.example").hostField = "edge.example"
    ∧ effectiveHostHeader parseCache1
        (mkPurgeRequest cfgOv "http://cache1/x" "edge.example") = "edge.example" :=
  C1_hostOverride_used_verbatim cfgOv parseCache1 transport200 "/x" 0 "http://cache1/"
    (mkPurgeRequest cfgOv "http://cache1/x" "edge.example")
    (by decide) (by decide) (by decide)

/-- C4: every per-target outcome carries the constructed request URL, which
is the target's URL prefix with all trailing `/` characters stripped,
concatenated with the path verbatim: the original prefix is the trimmed
prefix followed by some run of slashes, the trimmed prefix does not end in a
slash, and nothing is inserted between prefix and path. -/
theorem C4_requestURL_trimmed_concat (cfg : Config) (parse : String → Option GoURL)
    (transport : Request → Option Nat) (path : String) (idx : Nat) (pfx : String) :
    requestURLOfOutcome (dispatchOne cfg parse transport path idx pfx)
      = trimRightSlashes pfx ++ path
    ∧ (∃ k, pfx.data = (trimRightSlashes pfx).data ++ List.replicate k '/')
    ∧ (trimRightSlashes pfx).data.getLast? ≠ some '/' :=
  ⟨requestURLOfOutcome_dispatchOne cfg parse transport path idx pfx,
    (trimRightSlashes_spec pfx).1, (trimRightSlashes_spec pfx).2⟩

/-- C5: identifier resolution returns the matched entry's path exactly when
the metadata query succeeds with exactly one entry; a query error, zero
matches, or multiple matches all return the empty-string sentinel, so the
caller cannot tell these failure causes apart. -/
theorem C5_resolution_exactly_one (r : Option (List String)) :
    (∀ p, r = some [p] → fetchIRODSPath r = p)
    ∧ (r = none → fetchIRODSPath r = "")
    ∧ (∀ l, r = some l → l.length ≠ 1 → fetchIRODSPath r = "") := by
  refine ⟨?_, ?_, ?_⟩
  · intro p hp
    subst hp
    rfl
  · intro h
    subst h
    rfl
  · intro l hl hlen
    subst hl
    show (if l.length = 1 then l.headD "" else "") = ""
    rw [if_neg hlen]

/-- Witness for C5: one match returns its path, a query error and a
two-entry result both return the empty sentinel. -/
theorem C5_resolution_exactly_one_w :
    fetchIRODSPath (some ["/zone/home/f.txt"]) = "/zone/home/f.txt"
    ∧ fetchIRODSPath none = ""
    ∧ fetchIRODSPath (some ["/a", "/b"]) = "" :=
  ⟨(C5_resolution_exactly_one (some ["/zone/home/f.txt"])).1 "/zone/home/f.txt" rfl,
    (C5_resolution_exactly_one none).2.1 rfl,
    (C5_resolution_exactly_one (some ["/a", "/b"])).2.2 ["/a", "/b"] rfl (by decide)⟩

/-- Counterexample to C2: an event whose path and identifier are both empty
is not dropped. With one configured target, no overrides, a parse oracle
that accepts the URL and a transport answering 200, the handler still hands
one PURGE request — for the bare trimmed prefix — to the transport. -/
theorem C2_both_empty_not_dropped_cex :
    outboundRequests
        (fsEventHandler cfgNoOv parseCache1 transport200 resolveNone
          "data-object.add" "" "")
      = [mkPurgeRequest cfgNoOv "http://cache1" ""] := by
  decide

/-- C2 amended: an event whose path and identifier fields are both empty is
not dropped; the handler degrades to a purge of the empty path, still
producing one per-target outcome for every configured target (each request
URL being the bare trimmed prefix). -/
theorem C2_both_empty_degrades_to_empty_purge (cfg : Config)
    (parse : String → Option GoURL) (transport : Request → Option Nat)
    (resolve : String → Option (List String)) (eventtype : String) :
    fsEventHandler cfg parse transport resolve eventtype "" ""
      = purgeCache cfg parse transport ""
    ∧ (fsEventHandler cfg parse transport resolve eventtype "" "").length
      = cfg.varnishURLPrefixes.length := by
  have h : fsEventHandler cfg parse transport resolve eventtype "" ""
      = purgeCache cfg parse transport "" := by
    unfold fsEventHandler
    simp
  exact ⟨h, by rw [h]; exact purgeCache_length cfg parse transport ""⟩

/-- Counterexample to C3: with one configured target (`N = 1`) and a path
containing an ASCII control character, the constructed URL is rejected by
the URL parser (Go's `url.Parse` refuses control characters in a raw URL),
so zero outbound PURGE requests are constructed, not one. -/
theorem C3_exactly_n_outbound_cex :
    cfgNoOv.varnishURLPrefixes.length = 1
    ∧ outboundRequests
        (purgeCache cfgNoOv ctlRejectingParse transport200 "/\x00") = [] := by
  decide

/-- C3 amended: a single purge call always produces exactly one per-target
outcome per configured target (`N` tasks with independent outcomes); it hands
at most `N` requests to the transport, and exactly `N` — one per target —
whenever every constructed URL parses. -/
theorem C3_fanout_counts (cfg : Config) (parse : String → Option GoURL)
    (transport : Request → Option Nat) (path : String) :
    (purgeCache cfg parse transport path).length = cfg.varnishURLPrefixes.length
    ∧ (outboundRequests (purgeCache cfg parse transport path)).length
        ≤ cfg.varnishURLPrefixes.length
    ∧ ((∀ s, (parse s).isSome) →
        (outboundRequests (purgeCache cfg parse transport path)).length
          = cfg.varnishURLPrefixes.length) := by
  refine ⟨purgeCache_length cfg parse transport path, ?_, ?_⟩
  · calc (outboundRequests (purgeCache cfg parse transport path)).length
        ≤ (purgeCache cfg parse transport path).length :=
          outboundRequests_length_le _
      _ = cfg.varnishURLPrefixes.length := purgeCache_length cfg parse transport path
  · intro htotal
    exact outboundRequests_purgeCacheAux_total cfg parse transport path htotal 0
      cfg.varnishURLPrefixes

/-- Witness for C3 amended: with one target and a total parse oracle,
exactly one request reaches the transport. -/
theorem C3_fanout_counts_w :
    (outboundRequests (purgeCache cfgNoOv parseCache1 transport200 "/x")).length
      = cfgNoOv.varnishURLPrefixes.length :=
  (C3_fanout_counts cfgNoOv parseCache1 transport200 "/x").2.2 (fun _ => rfl)

/-- C6: for a target without a (non-empty) host override, the `Host` header
put on the wire is the host component parsed from the constructed request
URL; if that URL fails to parse, that target's dispatch ends in
`urlParseError` — no request is built — while any target whose constructed
URL differs is completely unaffected by how the parser treats this URL. -/
theorem C6_noOverride_host_from_url (cfg : Config) (parse : String → Option GoURL)
    (transport : Request → Option Nat) (path : String) (idx : Nat) (pfx : String)
    (hno : cfg.varnishHostsOverride.getD idx "" = "") :
    (∀ req g, sentRequest (dispatchOne cfg parse transport path idx pfx) = some req →
        parse req.url = some g →
        req.hostField = "" ∧ effectiveHostHeader parse req = g.host)
    ∧ (parse (trimRightSlashes pfx ++ path) = none →
        dispatchOne cfg parse transport path idx pfx
          = .urlParseError (trimRightSlashes pfx ++ path))
    ∧ (∀ (parse₂ : String → Option GoURL) (j : Nat) (pfx₂ : String),
        (∀ s, s ≠ trimRightSlashes pfx ++ path → parse₂ s = parse s) →
        trimRightSlashes pfx₂ ++ path ≠ trimRightSlashes pfx ++ path →
        dispatchOne cfg parse₂ transport path j pfx₂
          = dispatchOne cfg parse transport path j pfx₂) := by
  refine ⟨?_, ?_, ?_⟩
  · intro req g hsent hparse
    cases hp : parse (trimRightSlashes pfx ++ path) with
    | none =>
      rw [dispatchOne_noOverride_branch cfg parse transport path idx pfx hno, hp] at hsent
      exact Option.noConfusion hsent
    | some g' =>
      rw [sentRequest_dispatchOne_of_parse cfg parse transport path idx pfx g' hp,
        hno] at hsent
      have hreq : req = mkPurgeRequest cfg (trimRightSlashes pfx ++ path) "" := by
        injection hsent with h'
        exact h'.symm
      subst hreq
      refine ⟨rfl, ?_⟩
      unfold effectiveHostHeader
      have hurl : (mkPurgeRequest cfg (trimRightSlashes pfx ++ path) "").url
          = trimRightSlashes pfx ++ path := rfl
      rw [hurl] at hparse
      show (if ("" : String).length > 0 then "" else
        ((parse ((mkPurgeRequest cfg (trimRightSlashes pfx ++ path) "").url)).map
          GoURL.host).getD "") = g.host
      rw [if_neg (by decide), hurl, hparse]
      rfl
  · intro hp
    rw [dispatchOne_noOverride_branch cfg parse transport path idx pfx hno, hp]
  · intro parse₂ j pfx₂ hagree hne
    exact dispatchOne_parse_congr cfg parse₂ parse transport path j pfx₂
      (hagree (trimRightSlashes pfx₂ ++ path) hne)

/-- Witness for C6: one target `http://cache1/`, empty override list, parse
oracle reporting host `cache1`: the sent request has an empty `Host` field
and the wire `Host` header is `cache1`. -/
theorem C6_noOverride_host_from_url_w :
    (mkPurgeRequest cfgNoOv "http://cache1/x" "").hostField = ""
    ∧ effectiveHostHeader parseCache1 (mkPurgeRequest cfgNoOv "http://cache1/x" "")
        = "cache1" :=
  (C6_noOverride_host_from_url cfgNoOv parseCache1 transport200 "/x" 0 "http://cache1/"
      (by decide)).1
    (mkPurgeRequest cfgNoOv "http://cache1/x" "") (GoURL.mk "cache1")
    (by decide) (by decide)

/-- C7: a per-target task counts as a success exactly when the transport
returned a response whose status lies in `[200, 300)`; every other outcome
(URL-parse error, request-build error, transport error, out-of-range status)
is a recorded per-target outcome, never an exception — the dispatcher always
returns normally with one outcome per configured target. -/
theorem C7_success_iff_2xx (cfg : Config) (parse : String → Option GoURL)
    (transport : Request → Option Nat) (path : String) (idx : Nat) (pfx : String) :
    (isSuccess (dispatchOne cfg parse transport path idx pfx) = true
      ↔ ∃ req s, sentRequest (dispatchOne cfg parse transport path idx pfx) = some req
          ∧ transport req = some s ∧ 200 ≤ s ∧ s < 300)
    ∧ (purgeCache cfg parse transport path).length = cfg.varnishURLPrefixes.length := by
  refine ⟨?_, purgeCache_length cfg parse transport path⟩
  rcases dispatchOne_cases cfg parse transport path idx pfx with h | h | h
  · rw [h]
    simp [isSuccess, sentRequest]
  · rw [h]
    simp [isSuccess, sentRequest]
  · rw [h, sentRequest_sendRequest]
    rw [isSuccess_sendRequest]
    constructor
    · rintro ⟨s, hs, h200, h300⟩
      exact ⟨_, s, rfl, hs, h200, h300⟩
    · rintro ⟨req, s, hreq, hs, h200, h300⟩
      injection hreq with hreq
      rw [← hreq] at hs
      exact ⟨s, hs, h200, h300⟩

/-- C8: for every path — including the empty string a failed or ambiguous
resolution produces — the dispatcher still processes every configured
target: it yields one outcome per target and the URL constructed for target
`j` is that target's trimmed prefix with the path appended as suffix; the
operation is never aborted. -/
theorem C8_empty_path_still_dispatches (cfg : Config) (parse : String → Option GoURL)
    (transport : Request → Option Nat) (path : String) (j : Nat) :
    (purgeCache cfg parse transport path).length = cfg.varnishURLPrefixes.length
    ∧ ((purgeCache cfg parse transport path)[j]?).map requestURLOfOutcome
        = (cfg.varnishURLPrefixes[j]?).map (fun pfx => trimRightSlashes pfx ++ path) := by
  refine ⟨purgeCache_length cfg parse transport path, ?_⟩
  rw [purgeCache_getElem?]
  cases cfg.varnishURLPrefixes[j]? with
  | none => rfl
  | some pfx =>
    show some (requestURLOfOutcome (dispatchOne cfg parse transport path j pfx))
        = some (trimRightSlashes pfx ++ path)
    rw [requestURLOfOutcome_dispatchOne]

/-- C9: when the event's path field is non-empty, the identifier resolver is
never consulted — the handler's result does not depend on the resolution
oracle at all — and the path is handed to the purge dispatcher unchanged,
even when a uuid is also present. -/
theorem C9_resolver_only_when_path_empty (cfg : Config)
    (parse : String → Option GoURL) (transport : Request → Option Nat)
    (resolve resolve₂ : String → Option (List String))
    (eventtype path uuid : String) (h : path ≠ "") :
    fsEventHandler cfg parse transport resolve eventtype path uuid
      = purgeCache cfg parse transport path
    ∧ fsEventHandler cfg parse transport resolve eventtype path uuid
      = fsEventHandler cfg parse transport resolve₂ eventtype path uuid := by
  have hpos := string_length_pos_of_ne_empty path h
  have hcond : ¬(path.length = 0 ∧ uuid.length > 0) := by
    intro hc
    obtain ⟨h0, _⟩ := hc
    omega
  have key : ∀ r : String → Option (List String),
      fsEventHandler cfg parse transport r eventtype path uuid
        = purgeCache cfg parse transport path := by
    intro r
    unfold fsEventHandler
    rw [if_neg hcond]
  exact ⟨key resolve, (key resolve).trans (key resolve₂).symm⟩

/-- Witness for C9: with a non-empty path `/a/b.txt` and a uuid present, a
failing resolution oracle yields the same dispatch as a purge of the path. -/
theorem C9_resolver_only_when_path_empty_w :
    fsEventHandler cfgNoOv parseCache1 transport200 resolveNone
        "data-object.mv" "/a/b.txt" "u1"
      = purgeCache cfgNoOv parseCache1 transport200 "/a/b.txt" :=
  (C9_resolver_only_when_path_empty cfgNoOv parseCache1 transport200 resolveNone
    resolveNone "data-object.mv" "/a/b.txt" "u1" (by decide)).1

/-- C10: an empty override entry at an in-bounds index behaves exactly as if
no override were configured at all: the dispatch equals the dispatch under a
configuration with no override list, the request's `Host` field is left
empty, and the wire `Host` header is whatever the constructed URL parses to. -/
theorem C10_empty_override_like_missing (cfg : Config)
    (parse : String → Option GoURL) (transport : Request → Option Nat)
    (path : String) (idx : Nat) (pfx : String)
    (hidx : idx < cfg.varnishHostsOverride.length)
    (hemp : cfg.varnishHostsOverride.getD idx "" = "") :
    dispatchOne cfg parse transport path idx pfx
      = dispatchOne { cfg with varnishHostsOverride := [] } parse transport path idx pfx
    ∧ (∀ req g, sentRequest (dispatchOne cfg parse transport path idx pfx) = some req →
        parse req.url = some g →
        req.hostField = "" ∧ effectiveHostHeader parse req = g.host) := by
  have hemp' : ({ cfg with varnishHostsOverride := ([] : List String) } :
      Config).varnishHostsOverride.getD idx "" = "" := by
    simp [List.getD]
  refine ⟨?_, (C6_noOverride_host_from_url cfg parse transport path idx pfx hemp).1⟩
  rw [dispatchOne_noOverride_branch cfg parse transport path idx pfx hemp,
    dispatchOne_noOverride_branch _ parse transport path idx pfx hemp']
  cases parse (trimRightSlashes pfx ++ path) with
  | none => rfl
  | some g => rfl

/-- Witness for C10: the target with override entry `""` dispatches exactly
like the same target with no override list. -/
theorem C10_empty_override_like_missing_w :
    dispatchOne cfgEmptyOv parseCache1 transport200 "/x" 0 "http://cache1/"
      = dispatchOne { cfgEmptyOv with varnishHostsOverride := [] } parseCache1
          transport200 "/x" 0 "http://cache1/" :=
  (C10_empty_override_like_missing cfgEmptyOv parseCache1 transport200 "/x" 0
    "http://cache1/" (by decide) (by decide)).1
